import Mathlib

/-!
# Verification of `transaction_deletion_record.py` (erpnext)

Shallow embedding of the transaction-deletion pipeline of
`erpnext/setup/doctype/transaction_deletion_record/transaction_deletion_record.py`.

The data store is a record `DB` holding the tables the module reads and writes;
the `TransactionDeletionRecord` document is a record `Job`.  Each stage method of
the Python class becomes a function `Job → DB → Eff`, where `Eff` carries the
updated job, the updated store, and the list of method names the invocation
handed to `chain_callback` (i.e. enqueued as asynchronous continuations).

Naming: Python names are kept wherever possible.  The checkpoint field
`initialize_doctypes_table` is rendered `init_doctypes_table`, and the method
`initialize_doctypes_to_be_deleted_table` is rendered
`init_doctypes_to_be_deleted_table` (pure renamings).
-/

namespace TDR

/-- A row of the `DocType` metadata table (the fields this module reads). -/
structure DocTypeMeta where
  name : String
  issingle : Bool
  istable : Bool
  /-- the `autoname` column; `none` models SQL NULL. -/
  autoname : Option String
  deriving DecidableEq, Repr

/-- A row of the `DocField` metadata table (the fields this module reads). -/
structure DocFieldMeta where
  parent : String
  fieldname : String
  fieldtype : String
  options : String
  deriving DecidableEq, Repr

/-- A generic stored record: its doctype, its primary key `name`, and its
column values as an association list (a missing column reads as `none`). -/
structure Doc where
  doctype : String
  name : String
  fields : List (String × String)
  deriving DecidableEq, Repr

/-- A row of `tabVersion`. -/
structure VersionRec where
  name : String
  ref_doctype : String
  docname : String
  deriving DecidableEq, Repr

/-- A row of `tabCommunication` (the columns this module filters on). -/
structure CommunicationRec where
  name : String
  reference_doctype : String
  reference_name : String
  deriving DecidableEq, Repr

/-- A row of `tabComment` (the columns this module filters on). -/
structure CommentRec where
  name : String
  reference_doctype : String
  reference_name : String
  deriving DecidableEq, Repr

/-- A row of `tabFile`; the attachment columns are nullable. -/
structure FileRec where
  name : String
  attached_to_doctype : Option String
  attached_to_name : Option String
  deriving DecidableEq, Repr

/-- A row of `tabDynamic Link`. -/
structure DynamicLinkRec where
  parent : String
  parenttype : String
  link_doctype : String
  link_name : String
  deriving DecidableEq, Repr

/-- A row of `tabLead` (the columns this module filters on). -/
structure LeadRec where
  name : String
  company : String
  deriving DecidableEq, Repr

/-- A row of `tabCustomer` (the columns this module touches). -/
structure CustomerRec where
  name : String
  lead_name : Option String
  deriving DecidableEq, Repr

/-- A row of `tabBin` (the columns this module filters on). -/
structure BinRec where
  name : String
  warehouse : String
  deriving DecidableEq, Repr

/-- A row of `tabWarehouse` (the columns this module filters on). -/
structure WarehouseRec where
  name : String
  company : String
  deriving DecidableEq, Repr

/-- A row of the `Company` doctype (the fields `reset_company_values` touches). -/
structure CompanyRec where
  name : String
  total_monthly_sales : Int
  sales_monthly_history : Option String
  deriving DecidableEq, Repr

/-- A row of `tabSeries`: the stored auto-numbering counter per series name. -/
structure SeriesRec where
  name : String
  current : Int
  deriving DecidableEq, Repr

/-- The data store: every table the module reads or writes.  `docs` holds the
records of all company-linked doctypes and of all child tables; `notifications`
models the process-wide notification cache cleared by `clear_notifications()`. -/
structure DB where
  doctypes : List DocTypeMeta
  docfields : List DocFieldMeta
  docs : List Doc
  versions : List VersionRec
  communications : List CommunicationRec
  comments : List CommentRec
  files : List FileRec
  dynamic_links : List DynamicLinkRec
  leads : List LeadRec
  customers : List CustomerRec
  /-- Embeds `tabAddress`, reduced to the primary keys (the only column used). -/
  addresses : List String
  bins : List BinRec
  warehouses : List WarehouseRec
  companies : List CompanyRec
  series : List SeriesRec
  notifications : List String
  deriving DecidableEq, Repr

/-- A child row of the `doctypes` table of the job
(`TransactionDeletionRecordItem`). -/
structure InventoryItem where
  doctype_name : String
  docfield_name : String
  no_of_docs : Nat
  done : Bool
  deriving DecidableEq, Repr

/-- A child row of the `doctypes_to_be_ignored` table of the job. -/
structure IgnoredItem where
  doctype_name : String
  deriving DecidableEq, Repr

/-- The `TransactionDeletionRecord` document.  The `DF.Check` fields of the
source are `Bool` here; `init_doctypes_table` renders the source field
`initialize_doctypes_table`. -/
structure Job where
  company : String
  status : String
  clear_notifications : Bool
  delete_bin_data : Bool
  delete_leads_and_addresses : Bool
  delete_transactions : Bool
  init_doctypes_table : Bool
  reset_company_default_values : Bool
  doctypes : List InventoryItem
  doctypes_to_be_ignored : List IgnoredItem
  deriving DecidableEq, Repr

/-- Embeds `self.batch_size = 5000`, set in `__init__`. -/
def batch_size : Nat := 5000

/-- Embeds `self.doctype` of a `TransactionDeletionRecord` document. -/
def tdr_doctype : String := "Transaction Deletion Record"

/-- Result of invoking one stage method: the updated job, the updated store,
and the method names passed to `chain_callback` during the invocation. -/
structure Eff where
  job : Job
  db : DB
  sched : List String
  deriving DecidableEq, Repr

/-! ## Field access and small helpers -/

/-- Read a column of a generic record (association-list lookup). -/
def lookupField (d : Doc) (fieldname : String) : Option String :=
  d.fields.lookup fieldname

/-- Is `c` a decimal digit (by code point)? -/
def isDigitChar (c : Char) : Bool :=
  48 ≤ c.toNat && c.toNat ≤ 57

/-- Value of a nonempty all-digit character list, `none` otherwise. -/
def digitsToNat : List Char → Option Nat
  | [] => none
  | ds =>
    if ds.all isDigitChar then
      some (ds.foldl (fun acc c => acc * 10 + (c.toNat - 48)) 0)
    else none

/-- Embeds `frappe.utils.cint`: parse an integer, `0` on failure.  (The source goes
through `int(float(s))`; on the optionally signed all-digit strings produced by
naming series the two agree, and claims only exercise such strings.) -/
def cint (s : String) : Int :=
  match s.data with
  | '-' :: ds =>
    match digitsToNat ds with
    | some n => -(n : Int)
    | none => 0
  | ds =>
    match digitsToNat ds with
    | some n => (n : Int)
    | none => 0

/-- Does `c` occur in `s`?  (Python `c in s`; `String.contains` of core does not
reduce in the kernel, so work on the character list.) -/
def containsChar (s : String) (c : Char) : Bool :=
  s.data.contains c

/-- Does `s` start with `p`?  (SQL `s like p + percent`, for the wildcard-free
series leads this module builds.) -/
def strStartsWith (s p : String) : Bool :=
  p.data.isPrefixOf s.data

/-- Fuel-driven worker for `replaceChars` (structural recursion on the fuel,
which starts at the list length; every step consumes at least one character,
so the fuel never runs out). -/
def replaceCharsAux (pat rep : List Char) : Nat → List Char → List Char
  | 0, l => l
  | fuel + 1, l =>
    match l with
    | [] => []
    | c :: cs =>
      if pat.length != 0 && pat.isPrefixOf (c :: cs) then
        rep ++ replaceCharsAux pat rep fuel ((c :: cs).drop pat.length)
      else
        c :: replaceCharsAux pat rep fuel cs

/-- Python `s.replace(pat, rep)`: replace every non-overlapping occurrence,
left to right.  An empty `pat` leaves the list unchanged (the module only
strips nonempty series leads). -/
def replaceChars (pat rep l : List Char) : List Char :=
  replaceCharsAux pat rep l.length l

/-- String version of `replaceChars`. -/
def strReplace (s pat rep : String) : String :=
  ⟨replaceChars pat.data rep.data s.data⟩

/-- Lexicographic order on character lists by code point (the comparison SQL
`max` applies to the identifier column on the binary collation the relevant
names use). -/
def charsLt : List Char → List Char → Bool
  | [], [] => false
  | [], _ :: _ => true
  | _ :: _, [] => false
  | a :: as, b :: bs =>
    if a.toNat < b.toNat then true
    else if b.toNat < a.toNat then false
    else charsLt as bs

/-- String comparison used by `maxString`. -/
def strLt (a b : String) : Bool :=
  charsLt a.toList b.toList

/-- SQL `max(...)` over a string column: `none` on the empty table, otherwise
the lexicographic maximum. -/
def maxString : List String → Option String
  | [] => none
  | x :: xs => some (xs.foldl (fun a b => if strLt a b then b else a) x)

/-- Index of the last occurrence of the nonempty pattern `pat` in `l`. -/
def lastOccIdx (pat : List Char) : List Char → Option Nat
  | [] => none
  | c :: cs =>
    match lastOccIdx pat cs with
    | some i => some (i + 1)
    | none => if pat.isPrefixOf (c :: cs) then some 0 else none

/-- Python `s.rsplit(sep, 1)` followed by a two-variable unpacking: splits at
the last occurrence of `sep`; `none` when `sep` does not occur (the source
raises `ValueError` there). -/
def rsplit1 (s sep : String) : Option (String × String) :=
  match lastOccIdx sep.data s.data with
  | none => none
  | some i => some (⟨s.data.take i⟩, ⟨s.data.drop (i + sep.data.length)⟩)

/-! ## Module-level functions -/

/-- Embeds `get_doctypes_to_be_ignored()` (module level): the fixed built-in list
extended by the `company_data_to_be_ignored` hook list. -/
def get_doctypes_to_be_ignored (hooks : List String) : List String :=
  ["Account",
   "Cost Center",
   "Warehouse",
   "Budget",
   "Party Account",
   "Employee",
   "Sales Taxes and Charges Template",
   "Purchase Taxes and Charges Template",
   "POS Profile",
   "BOM",
   "Company",
   "Bank Account",
   "Item Tax Template",
   "Mode of Payment",
   "Mode of Payment Account",
   "Item Default",
   "Customer",
   "Supplier"] ++ hooks

/-- Validation outcomes.  `permissionDenied` renders the `frappe.PermissionError`
raised by `frappe.only_for("System Manager")`; `invalidConfiguration` renders
the `frappe.ValidationError` (titled "Not Allowed") thrown by
`validate_doctypes_to_be_ignored`. -/
inductive DeletionError where
  | permissionDenied
  | invalidConfiguration
  deriving DecidableEq, Repr

/-- Embeds `validate_doctypes_to_be_ignored`: throws on the first entry of the job's
`doctypes_to_be_ignored` table that the resolver did not produce. -/
def validate_doctypes_to_be_ignored (hooks : List String) (j : Job) :
    Except DeletionError Unit :=
  match j.doctypes_to_be_ignored.find?
      (fun d => !((get_doctypes_to_be_ignored hooks).contains d.doctype_name)) with
  | some _ => .error .invalidConfiguration
  | none => .ok ()

/-- Embeds `validate`: `frappe.only_for("System Manager")` then the ignore-table check.
`is_system_manager` models whether the session user holds the role (or is
Administrator). -/
def validate (is_system_manager : Bool) (hooks : List String) (j : Job) :
    Except DeletionError Unit :=
  if !is_system_manager then .error .permissionDenied
  else validate_doctypes_to_be_ignored hooks j

/-! ## Document lifecycle methods -/

/-- Embeds `reset_task_flags`: the five assignments of the source, verbatim. -/
def reset_task_flags (j : Job) : Job :=
  { j with
    clear_notifications := false
    delete_bin_data := false
    delete_leads_and_addresses := false
    delete_transactions := false
    reset_company_default_values := false }

/-- Embeds `before_save`: clear `status`, then `reset_task_flags`. -/
def before_save (j : Job) : Job :=
  reset_task_flags { j with status := "" }

/-- Embeds `on_submit`: `db_set("status", "Queued")`. -/
def on_submit (j : Job) : Job :=
  { j with status := "Queued" }

/-- Embeds `on_cancel`: `db_set("status", "Cancelled")`. -/
def on_cancel (j : Job) : Job :=
  { j with status := "Cancelled" }

/-! ## Query helpers (methods of the class) -/

/-- Embeds `get_doctypes_to_be_ignored_list`: all `issingle` doctypes, then the
entries of the job's `doctypes_to_be_ignored` table. -/
def get_doctypes_to_be_ignored_list (j : Job) (db : DB) : List String :=
  ((db.doctypes.filter (·.issingle)).map (·.name)) ++
    (j.doctypes_to_be_ignored.map (·.doctype_name))

/-- Embeds `get_doctypes_with_company_field`: `DocField` rows of fieldtype `Link` with
options `Company` whose parent is not ignored. -/
def get_doctypes_with_company_field (db : DB) (ignored : List String) :
    List DocFieldMeta :=
  db.docfields.filter fun f =>
    f.fieldtype == "Link" && f.options == "Company" && !(ignored.contains f.parent)

/-- Embeds `get_all_child_doctypes`: names of all `istable` doctypes. -/
def get_all_child_doctypes (db : DB) : List String :=
  (db.doctypes.filter (·.istable)).map (·.name)

/-- Embeds `get_number_of_docs_linked_with_specified_company`:
`frappe.db.count(doctype, {company_fieldname: company})`. -/
def get_number_of_docs_linked_with_specified_company
    (db : DB) (doctype company_fieldname company : String) : Nat :=
  (db.docs.filter fun d =>
    d.doctype == doctype && lookupField d company_fieldname == some company).length

/-- The `frappe.get_all(..., limit=self.batch_size)` fetch of
`delete_company_transactions`: the first `batch_size` matching record names in
storage order. -/
def fetch_batch (db : DB) (doctype company_fieldname company : String) :
    List String :=
  ((db.docs.filter fun d =>
      d.doctype == doctype && lookupField d company_fieldname == some company).take
    batch_size).map (·.name)

/-- Embeds `populate_doctypes_table`: append an inventory row unless the doctype is a
child table.  (The `self.save` of the source persists the job, which needs no
separate model here.) -/
def populate_doctypes_table (tables : List String) (j : Job)
    (doctype fieldname : String) (no_of_docs : Nat) : Job :=
  if tables.contains doctype then j
  else { j with doctypes := j.doctypes ++ [⟨doctype, fieldname, no_of_docs, false⟩] }

/-! ## Pipeline stages -/

/-- Embeds `delete_notifications`: clear the notification cache once, then chain
`initialize_doctypes_to_be_deleted_table` (rendered
`init_doctypes_to_be_deleted_table`). -/
def delete_notifications (j : Job) (db : DB) : Eff :=
  if !j.clear_notifications then
    { job := { j with clear_notifications := true }
      db := { db with notifications := [] }
      sched := ["init_doctypes_to_be_deleted_table"] }
  else
    { job := j, db := db, sched := ["init_doctypes_to_be_deleted_table"] }

/-- Embeds `delete_bins`: delete `tabBin` rows whose warehouse belongs to the job's
company, once; always chain `delete_lead_addresses`. -/
def delete_bins (j : Job) (db : DB) : Eff :=
  if !j.delete_bin_data then
    let company_warehouses :=
      (db.warehouses.filter (fun w => w.company == j.company)).map (·.name)
    { job := { j with delete_bin_data := true }
      db := { db with
        bins := db.bins.filter (fun b => !(company_warehouses.contains b.warehouse)) }
      sched := ["delete_lead_addresses"] }
  else
    { job := j, db := db, sched := ["delete_lead_addresses"] }

/-- Names of the leads of the job's company
(`frappe.get_all("Lead", filters={"company": self.company})`). -/
def lead_names (j : Job) (db : DB) : List String :=
  (db.leads.filter (fun l => l.company == j.company)).map (·.name)

/-- The `NOT IN` subquery of the address delete: parents having two
`tabDynamic Link` rows with differing `link_doctype`. -/
def has_multiple_link_doctypes (links : List DynamicLinkRec) (parent : String) :
    Bool :=
  links.any fun d1 =>
    d1.parent == parent &&
      links.any (fun d2 => d2.parent == parent && d1.link_doctype != d2.link_doctype)

/-- Embeds `delete_lead_addresses`: delete addresses linked (via `tabDynamic Link`)
only through one link doctype to the company's leads, delete the lead-linkage
rows, and null `tabCustomer.lead_name`; always chain `reset_company_values`. -/
def delete_lead_addresses (j : Job) (db : DB) : Eff :=
  if !j.delete_leads_and_addresses then
    let leads := lead_names j db
    let db2 :=
      if leads.isEmpty then db
      else
        -- select parent from `tabDynamic Link` where link_name in (leads)
        let addrs :=
          (db.dynamic_links.filter (fun dl => leads.contains dl.link_name)).map
            (·.parent)
        let db1 :=
          if addrs.isEmpty then db
          else
            -- delete from `tabAddress` where name in (addrs) and name not in
            -- (parents with two links of differing link_doctype)
            let dbA := { db with
              addresses := db.addresses.filter fun a =>
                !(addrs.contains a && !(has_multiple_link_doctypes db.dynamic_links a)) }
            -- delete from `tabDynamic Link` where link_doctype='Lead'
            -- and parenttype='Address' and link_name in (leads)
            { dbA with
              dynamic_links := dbA.dynamic_links.filter fun dl =>
                !(dl.link_doctype == "Lead" && dl.parenttype == "Address" &&
                  leads.contains dl.link_name) }
        -- update `tabCustomer` set lead_name=NULL where lead_name in (leads)
        { db1 with
          customers := db1.customers.map fun c =>
            if (match c.lead_name with
                | some ln => leads.contains ln
                | none => false) then
              { c with lead_name := none }
            else c }
    { job := { j with delete_leads_and_addresses := true }
      db := db2
      sched := ["reset_company_values"] }
  else
    { job := j, db := db, sched := ["reset_company_values"] }

/-- Embeds `reset_company_values`: zero the rolling sales figures on the company's own
record, once; always chain `delete_notifications`. -/
def reset_company_values (j : Job) (db : DB) : Eff :=
  if !j.reset_company_default_values then
    { job := { j with reset_company_default_values := true }
      db := { db with
        companies := db.companies.map fun c =>
          if c.name == j.company then
            { c with total_monthly_sales := 0, sales_monthly_history := none }
          else c }
      sched := ["delete_notifications"] }
  else
    { job := j, db := db, sched := ["delete_notifications"] }

/-- One iteration of the `for docfield in docfields` loop of
`initialize_doctypes_to_be_deleted_table`: skip the job's own doctype, count
live references (against the store, which the loop never mutates), and
populate the inventory when the count is positive. -/
def init_step (db : DB) (company : String) (tables : List String)
    (acc : Job) (f : DocFieldMeta) : Job :=
  if f.parent != tdr_doctype then
    if 0 < get_number_of_docs_linked_with_specified_company db f.parent
        f.fieldname company then
      populate_doctypes_table tables acc f.parent f.fieldname 0
    else acc
  else acc

/-- Embeds `initialize_doctypes_to_be_deleted_table` (rendered with `init`): discover
the company-linked doctypes and append an inventory row for each one with a
positive live count; always chain `delete_company_transactions`. -/
def init_doctypes_to_be_deleted_table (j : Job) (db : DB) : Eff :=
  if !j.init_doctypes_table then
    let doctypes_to_be_ignored_list := get_doctypes_to_be_ignored_list j db
    let docfields := get_doctypes_with_company_field db doctypes_to_be_ignored_list
    let tables := get_all_child_doctypes db
    let j1 := docfields.foldl (init_step db j.company tables) j
    { job := { j1 with init_doctypes_table := true }
      db := db
      sched := ["delete_company_transactions"] }
  else
    { job := j, db := db, sched := ["delete_company_transactions"] }

/-! ## Dependent-artifact cleanup -/

/-- Embeds `delete_version_log`: delete `tabVersion` rows whose `(ref_doctype, docname)`
is in the batch. -/
def delete_version_log (db : DB) (doctype : String) (docnames : List String) :
    DB :=
  { db with
    versions := db.versions.filter fun v =>
      !(v.ref_doctype == doctype && docnames.contains v.docname) }

/-- Embeds `delete_communications`: `frappe.delete_doc` over every matching
communication (the `create_batch` loop of the source covers all of them, in
sub-batches of `batch_size`). -/
def delete_communications (db : DB) (doctype : String)
    (reference_doc_names : List String) : DB :=
  { db with
    communications := db.communications.filter fun c =>
      !(c.reference_doctype == doctype && reference_doc_names.contains c.reference_name) }

/-- Embeds `delete_comments`: `frappe.delete_doc` over every matching comment (again
in `create_batch` sub-batches covering all of them). -/
def delete_comments (db : DB) (doctype : String)
    (reference_doc_names : List String) : DB :=
  { db with
    comments := db.comments.filter fun c =>
      !(c.reference_doctype == doctype && reference_doc_names.contains c.reference_name) }

/-- Embeds `unlink_attachments`: null both attachment columns of every matching
`tabFile` row (the file itself survives). -/
def unlink_attachments (db : DB) (doctype : String)
    (reference_doc_names : List String) : DB :=
  { db with
    files := db.files.map fun f =>
      if (f.attached_to_doctype == some doctype &&
          (match f.attached_to_name with
           | some n => reference_doc_names.contains n
           | none => false)) then
        { f with attached_to_doctype := none, attached_to_name := none }
      else f }

/-- Delete the rows of one child table whose `parent` is in the batch
(`frappe.db.delete(table, {"parent": ["in", reference_doc_names]})`). -/
def delete_child_rows (db : DB) (table : String)
    (reference_doc_names : List String) : DB :=
  { db with
    docs := db.docs.filter fun d =>
      !(d.doctype == table &&
        (match lookupField d "parent" with
         | some p => reference_doc_names.contains p
         | none => false)) }

/-- Embeds `delete_child_tables`: the child tables declared by `doctype`'s Table
fields, each purged of rows parented in the batch. -/
def delete_child_tables (db : DB) (doctype : String)
    (reference_doc_names : List String) : DB :=
  let child_tables :=
    (db.docfields.filter (fun f => f.fieldtype == "Table" && f.parent == doctype)).map
      (·.options)
  child_tables.foldl (fun acc t => delete_child_rows acc t reference_doc_names) db

/-- Embeds `delete_docs_linked_with_specified_company`:
`frappe.db.delete(doctype, {company_fieldname: self.company})` — every matching
record, with no batch bound. -/
def delete_docs_linked_with_specified_company (db : DB)
    (doctype company_fieldname company : String) : DB :=
  { db with
    docs := db.docs.filter fun d =>
      !(d.doctype == doctype && lookupField d company_fieldname == some company) }

/-- Names of the surviving records of `doctype_name` matching `name like pfx%`. -/
def surviving_names (db : DB) (doctype_name pfx : String) : List String :=
  ((db.docs.filter fun d => d.doctype == doctype_name && strStartsWith d.name pfx).map
    (·.name))

/-- Embeds `update_naming_series`: split the naming pattern at its last `.` (or `{`),
take the numeric suffix of the maximum surviving name with that series
name as its lead, default 0, and store it in `tabSeries`.  When neither
separator occurs the source raises `ValueError`; that error path is modelled as
leaving the store unchanged (no claim exercises it). -/
def update_naming_series (db : DB) (naming_series doctype_name : String) : DB :=
  let split :=
    if containsChar naming_series '.' then rsplit1 naming_series "."
    else rsplit1 naming_series "\x7b"
  match split with
  | none => db
  | some (pfx, _) =>
    let last : Int :=
      match maxString (surviving_names db doctype_name pfx) with
      | some m => cint (strReplace m pfx "")
      | none => 0
    { db with
      series := db.series.map fun s =>
        if s.name == pfx then { s with current := last } else s }

/-- The `autoname` of a doctype
(`frappe.db.get_value("DocType", doctype_name, "autoname")`). -/
def autoname_of (db : DB) (doctype_name : String) : Option String :=
  (db.doctypes.find? (fun m => m.name == doctype_name)).bind (·.autoname)

/-! ## The transaction-deletion stage -/

/-- The `for docfield in self.doctypes` loop of `delete_company_transactions`,
threading the store through the iterations and returning the updated inventory
rows and the continuations handed to `chain_callback`. -/
def delete_company_transactions_loop (company : String) :
    DB → List InventoryItem → DB × List InventoryItem × List String
  | db, [] => (db, [], [])
  | db, it :: rest =>
    if it.doctype_name != tdr_doctype && !it.done then
      let no_of_docs := get_number_of_docs_linked_with_specified_company db
        it.doctype_name it.docfield_name company
      if 0 < no_of_docs then
        let reference_doc_names := fetch_batch db it.doctype_name it.docfield_name
          company
        let db1 := delete_version_log db it.doctype_name reference_doc_names
        let db2 := delete_communications db1 it.doctype_name reference_doc_names
        let db3 := delete_comments db2 it.doctype_name reference_doc_names
        let db4 := unlink_attachments db3 it.doctype_name reference_doc_names
        let db5 := delete_child_tables db4 it.doctype_name reference_doc_names
        let db6 := delete_docs_linked_with_specified_company db5 it.doctype_name
          it.docfield_name company
        let db7 :=
          match autoname_of db6 it.doctype_name with
          | some naming_series =>
            if containsChar naming_series '#' then
              update_naming_series db6 naming_series it.doctype_name
            else db6
          | none => db6
        let r := delete_company_transactions_loop company db7 rest
        (r.1, it :: r.2.1, "delete_company_transactions" :: r.2.2)
      else
        -- frappe.db.set_value(docfield.doctype, docfield.name, "done", 1)
        let r := delete_company_transactions_loop company db rest
        (r.1, { it with done := true } :: r.2.1, r.2.2)
    else
      let r := delete_company_transactions_loop company db rest
      (r.1, it :: r.2.1, r.2.2)

/-- Embeds `delete_company_transactions`: guarded by the `delete_transactions`
checkpoint; runs the inventory loop, then sets the checkpoint.  The
ignored-list, docfields and child-table computations at the top of the source
body are dead in the loop and are reproduced as unused bindings. -/
def delete_company_transactions (j : Job) (db : DB) : Eff :=
  if !j.delete_transactions then
    let _doctypes_to_be_ignored_list := get_doctypes_to_be_ignored_list j db
    let _docfields := get_doctypes_with_company_field db _doctypes_to_be_ignored_list
    let _tables := get_all_child_doctypes db
    let r := delete_company_transactions_loop j.company db j.doctypes
    { job := { j with doctypes := r.2.1, delete_transactions := true }
      db := r.1
      sched := r.2.2 }
  else
    { job := j, db := db, sched := [] }

/-- Embeds `start_deletion_process`: the six stage calls in declared order, threading
job and store and collecting every continuation enqueued along the way. -/
def start_deletion_process (j : Job) (db : DB) : Eff :=
  let e1 := delete_bins j db
  let e2 := delete_lead_addresses e1.job e1.db
  let e3 := reset_company_values e2.job e2.db
  let e4 := delete_notifications e3.job e3.db
  let e5 := init_doctypes_to_be_deleted_table e4.job e4.db
  let e6 := delete_company_transactions e5.job e5.db
  { job := e6.job
    db := e6.db
    sched := e1.sched ++ e2.sched ++ e3.sched ++ e4.sched ++ e5.sched ++ e6.sched }

/-- The operations of the module that touch a job or the store, as one type
(used to state status-transition invariants across every operation). -/
inductive Op where
  | beforeSave
  | onSubmit
  | onCancel
  | bins
  | leadAddresses
  | companyValues
  | notificationsStage
  | inventoryInit
  | transactions
  | startProcess
  deriving DecidableEq, Repr

/-- Apply an operation to a state. -/
def applyOp : Op → Job → DB → Job × DB
  | .beforeSave, j, db => (before_save j, db)
  | .onSubmit, j, db => (on_submit j, db)
  | .onCancel, j, db => (on_cancel j, db)
  | .bins, j, db => ((delete_bins j db).job, (delete_bins j db).db)
  | .leadAddresses, j, db =>
    ((delete_lead_addresses j db).job, (delete_lead_addresses j db).db)
  | .companyValues, j, db =>
    ((reset_company_values j db).job, (reset_company_values j db).db)
  | .notificationsStage, j, db =>
    ((delete_notifications j db).job, (delete_notifications j db).db)
  | .inventoryInit, j, db =>
    ((init_doctypes_to_be_deleted_table j db).job,
     (init_doctypes_to_be_deleted_table j db).db)
  | .transactions, j, db =>
    ((delete_company_transactions j db).job, (delete_company_transactions j db).db)
  | .startProcess, j, db =>
    ((start_deletion_process j db).job, (start_deletion_process j db).db)

/-! ## Concrete fixtures -/

/-- The empty store. -/
def emptyDB : DB :=
  { doctypes := [], docfields := [], docs := [], versions := [],
    communications := [], comments := [], files := [], dynamic_links := [],
    leads := [], customers := [], addresses := [], bins := [], warehouses := [],
    companies := [], series := [], notifications := [] }

/-- A fresh job for company `C1` with nothing set. -/
def baseJob : Job :=
  { company := "C1", status := "", clear_notifications := false,
    delete_bin_data := false, delete_leads_and_addresses := false,
    delete_transactions := false, init_doctypes_table := false,
    reset_company_default_values := false, doctypes := [],
    doctypes_to_be_ignored := [] }

/-- A job whose five stage checkpoints are all set. -/
def doneJob : Job :=
  { baseJob with
    clear_notifications := true, delete_bin_data := true,
    delete_leads_and_addresses := true, reset_company_default_values := true,
    init_doctypes_table := true }

/-- A job with the inventory-initialized checkpoint set, used to exhibit that
submission does not reset this flag. -/
def initDoneJob : Job := { baseJob with init_doctypes_table := true }

/-- Hook configuration used by the C8 witness. -/
def hooksW : List String := ["Custom Company DT"]

/-- A job whose ignored-types table holds only resolver-produced entries. -/
def goodIgnoreJob : Job :=
  { baseJob with doctypes_to_be_ignored := [⟨"Account"⟩, ⟨"Custom Company DT"⟩] }

/-- A job whose ignored-types table holds a manually added entry. -/
def badIgnoreJob : Job :=
  { baseJob with doctypes_to_be_ignored := [⟨"Sales Invoice"⟩] }

/-! ## The C2 scenario: `Sales Invoice` with 3 rows, `Quotation` with 0 -/

/-- Store for the scenario: three `Sales Invoice` records of company `C1`,
two child rows, one comment, no `Quotation` records. -/
def scenarioDB : DB :=
  { doctypes := [⟨"Sales Invoice", false, false, some "INV-.#####"⟩,
                 ⟨"Quotation", false, false, none⟩,
                 ⟨"Sales Invoice Item", false, true, none⟩],
    docfields := [⟨"Sales Invoice", "company", "Link", "Company"⟩,
                  ⟨"Quotation", "company", "Link", "Company"⟩,
                  ⟨"Sales Invoice", "items", "Table", "Sales Invoice Item"⟩],
    docs := [⟨"Sales Invoice", "INV-00001", [("company", "C1")]⟩,
             ⟨"Sales Invoice", "INV-00002", [("company", "C1")]⟩,
             ⟨"Sales Invoice", "INV-00003", [("company", "C1")]⟩,
             ⟨"Sales Invoice Item", "SII-1", [("parent", "INV-00001")]⟩,
             ⟨"Sales Invoice Item", "SII-2", [("parent", "INV-00003")]⟩],
    versions := [], communications := [],
    comments := [⟨"CMT-1", "Sales Invoice", "INV-00002"⟩],
    files := [], dynamic_links := [], leads := [], customers := [],
    addresses := [], bins := [], warehouses := [], companies := [],
    series := [⟨"INV-", 3⟩], notifications := [] }

/-- Job for the scenario: inventory holds `Sales Invoice` (3 live records) and
`Quotation` (0 live records), transaction stage not yet checkpointed. -/
def scenarioJob : Job :=
  { company := "C1", status := "Queued",
    clear_notifications := true, delete_bin_data := true,
    delete_leads_and_addresses := true, delete_transactions := false,
    init_doctypes_table := true, reset_company_default_values := true,
    doctypes := [⟨"Sales Invoice", "company", 0, false⟩,
                 ⟨"Quotation", "company", 0, false⟩],
    doctypes_to_be_ignored := [] }

/-! ## The C1 input: one doctype with `batch_size + 1` live records -/

/-- Embeds `batch_size + 1` records of `Sales Invoice`, all referencing company
`C1`. -/
def bigDocs : List Doc :=
  (List.range (batch_size + 1)).map fun i =>
    ⟨"Sales Invoice", "SI-" ++ Nat.repr i, [("company", "C1")]⟩

/-- Store holding the `batch_size + 1` records. -/
def bigDB : DB :=
  { emptyDB with
    doctypes := [⟨"Sales Invoice", false, false, none⟩],
    docfields := [⟨"Sales Invoice", "company", "Link", "Company"⟩],
    docs := bigDocs }

/-- Job whose inventory holds the one oversized doctype. -/
def bigJob : Job :=
  { baseJob with
    doctypes := [⟨"Sales Invoice", "company", 0, false⟩] }

/-- Names of the record types currently in the job's inventory. -/
def inventory_names (j : Job) : List String :=
  j.doctypes.map (·.doctype_name)

/-- Store whose only company-linked type is a child table with one matching
record. -/
def childOnlyDB : DB :=
  { emptyDB with
    doctypes := [⟨"Sales Invoice Item", false, true, none⟩],
    docfields := [⟨"Sales Invoice Item", "company", "Link", "Company"⟩],
    docs := [⟨"Sales Invoice Item", "SII-1", [("company", "C1")]⟩] }

/-- Store with one ordinary company-linked type holding one matching record. -/
def simpleDB : DB :=
  { emptyDB with
    doctypes := [⟨"Sales Invoice", false, false, none⟩],
    docfields := [⟨"Sales Invoice", "company", "Link", "Company"⟩],
    docs := [⟨"Sales Invoice", "SI-1", [("company", "C1")]⟩] }

/-- Store with naming pattern `INV-.#####`, two surviving invoices and two
series rows. -/
def seriesDB : DB :=
  { emptyDB with
    doctypes := [⟨"Sales Invoice", false, false, some "INV-.#####"⟩],
    docs := [⟨"Sales Invoice", "INV-00042", []⟩,
             ⟨"Sales Invoice", "INV-00007", []⟩],
    series := [⟨"INV-", 99⟩, ⟨"QTN-", 7⟩] }

/-- Store with the same series rows but no surviving records. -/
def seriesDB2 : DB :=
  { emptyDB with series := [⟨"INV-", 99⟩] }

/-- Store for the C9 witness: address `A1` linked to lead `L1` of `C1` and to
a customer; address `A2` linked only to the lead. -/
def leadDB : DB :=
  { emptyDB with
    leads := [⟨"L1", "C1"⟩],
    addresses := ["A1", "A2"],
    dynamic_links := [⟨"A1", "Address", "Lead", "L1"⟩,
                      ⟨"A1", "Address", "Customer", "CUST-9"⟩,
                      ⟨"A2", "Address", "Lead", "L1"⟩],
    customers := [⟨"CUST-9", some "L1"⟩] }

/-- Is `dt` registered as a singleton (`issingle`) doctype? -/
def is_single (db : DB) (dt : String) : Bool :=
  db.doctypes.any fun m => m.name == dt && m.issingle

/-- The stored records of one doctype. -/
def docs_of (db : DB) (dt : String) : List Doc :=
  db.docs.filter fun d => d.doctype == dt

/-- Store whose only doctype is a singleton. -/
def singletonDB : DB :=
  { emptyDB with doctypes := [⟨"Global Defaults", true, false, none⟩] }

/-- The scenario store extended with one record of an unrelated doctype. -/
def c10DB : DB :=
  { scenarioDB with docs := scenarioDB.docs ++ [⟨"Item", "ITM-1", []⟩] }

/-! ## Lemmas and claim theorems -/

/-! ## Status-preservation lemmas -/

lemma populate_doctypes_table_status (tables : List String) (j : Job)
    (dt fn : String) (n : Nat) :
    (populate_doctypes_table tables j dt fn n).status = j.status := by
  unfold populate_doctypes_table; split <;> rfl

lemma init_step_status (db : DB) (c : String) (tables : List String)
    (acc : Job) (f : DocFieldMeta) :
    (init_step db c tables acc f).status = acc.status := by
  unfold init_step
  split
  · split
    · exact populate_doctypes_table_status _ _ _ _ _
    · rfl
  · rfl

lemma foldl_init_step_status (db : DB) (c : String) (tables : List String) :
    ∀ (dfs : List DocFieldMeta) (acc : Job),
      (dfs.foldl (init_step db c tables) acc).status = acc.status := by
  intro dfs
  induction dfs with
  | nil => intro acc; rfl
  | cons f rest ih =>
    intro acc
    rw [List.foldl_cons, ih, init_step_status]

lemma delete_bins_status (j : Job) (db : DB) :
    (delete_bins j db).job.status = j.status := by
  unfold delete_bins; split <;> rfl

lemma delete_lead_addresses_status (j : Job) (db : DB) :
    (delete_lead_addresses j db).job.status = j.status := by
  unfold delete_lead_addresses; split <;> rfl

lemma reset_company_values_status (j : Job) (db : DB) :
    (reset_company_values j db).job.status = j.status := by
  unfold reset_company_values; split <;> rfl

lemma delete_notifications_status (j : Job) (db : DB) :
    (delete_notifications j db).job.status = j.status := by
  unfold delete_notifications; split <;> rfl

lemma init_doctypes_status (j : Job) (db : DB) :
    (init_doctypes_to_be_deleted_table j db).job.status = j.status := by
  unfold init_doctypes_to_be_deleted_table
  split
  · exact foldl_init_step_status _ _ _ _ _
  · rfl

lemma delete_company_transactions_status (j : Job) (db : DB) :
    (delete_company_transactions j db).job.status = j.status := by
  unfold delete_company_transactions; split <;> rfl

lemma start_deletion_process_status (j : Job) (db : DB) :
    (start_deletion_process j db).job.status = j.status := by
  unfold start_deletion_process
  dsimp only
  rw [delete_company_transactions_status, init_doctypes_status,
    delete_notifications_status, reset_company_values_status,
    delete_lead_addresses_status, delete_bins_status]

/-! ## Claim theorems -/

/-- C3: for every pipeline stage with a declared successor (bins,
lead/addresses, company values, notifications, inventory init), invoking the
stage while its checkpoint flag is already set leaves the job and the store
unchanged and still enqueues exactly the successor stage. -/
theorem stage_reentry_noop_still_chains :
    (∀ j db, j.delete_bin_data = true →
      delete_bins j db = ⟨j, db, ["delete_lead_addresses"]⟩) ∧
    (∀ j db, j.delete_leads_and_addresses = true →
      delete_lead_addresses j db = ⟨j, db, ["reset_company_values"]⟩) ∧
    (∀ j db, j.reset_company_default_values = true →
      reset_company_values j db = ⟨j, db, ["delete_notifications"]⟩) ∧
    (∀ j db, j.clear_notifications = true →
      delete_notifications j db = ⟨j, db, ["init_doctypes_to_be_deleted_table"]⟩) ∧
    (∀ j db, j.init_doctypes_table = true →
      init_doctypes_to_be_deleted_table j db = ⟨j, db, ["delete_company_transactions"]⟩) := by
  refine ⟨?_, ?_, ?_, ?_, ?_⟩ <;> intro j db h
  · simp [delete_bins, h]
  · simp [delete_lead_addresses, h]
  · simp [reset_company_values, h]
  · simp [delete_notifications, h]
  · simp [init_doctypes_to_be_deleted_table, h]

/-- Witness for C3 at a concrete completed job and the empty store. -/
theorem stage_reentry_noop_still_chains_witness :
    delete_bins doneJob emptyDB = ⟨doneJob, emptyDB, ["delete_lead_addresses"]⟩ ∧
    delete_lead_addresses doneJob emptyDB =
      ⟨doneJob, emptyDB, ["reset_company_values"]⟩ ∧
    reset_company_values doneJob emptyDB =
      ⟨doneJob, emptyDB, ["delete_notifications"]⟩ ∧
    delete_notifications doneJob emptyDB =
      ⟨doneJob, emptyDB, ["init_doctypes_to_be_deleted_table"]⟩ ∧
    init_doctypes_to_be_deleted_table doneJob emptyDB =
      ⟨doneJob, emptyDB, ["delete_company_transactions"]⟩ :=
  ⟨stage_reentry_noop_still_chains.1 doneJob emptyDB rfl,
   stage_reentry_noop_still_chains.2.1 doneJob emptyDB rfl,
   stage_reentry_noop_still_chains.2.2.1 doneJob emptyDB rfl,
   stage_reentry_noop_still_chains.2.2.2.1 doneJob emptyDB rfl,
   stage_reentry_noop_still_chains.2.2.2.2 doneJob emptyDB rfl⟩

/-- C5 counterexample: the claim says submission resets all six checkpoint
flags, but the save/submit path leaves `initialize_doctypes_table` set. -/
theorem submit_does_not_reset_init_flag :
    (on_submit (before_save initDoneJob)).init_doctypes_table = true := rfl

/-- C5 (amended): submission resets the bin, lead/address, company-values and
notification checkpoints and the overall transactions flag, leaves the
inventory-initialized checkpoint untouched, and clears `status` before
`on_submit` sets it to `Queued`. -/
theorem submit_resets_flags_and_status (j : Job) :
    (before_save j).clear_notifications = false ∧
    (before_save j).delete_bin_data = false ∧
    (before_save j).delete_leads_and_addresses = false ∧
    (before_save j).delete_transactions = false ∧
    (before_save j).reset_company_default_values = false ∧
    (before_save j).init_doctypes_table = j.init_doctypes_table ∧
    (before_save j).status = "" ∧
    (on_submit (before_save j)).status = "Queued" := by
  refine ⟨rfl, rfl, rfl, rfl, rfl, rfl, rfl, rfl⟩

/-- C6: across every operation of the module, the job status either stays what
it was or becomes one of `""` (the pre-submission clear), `Queued`
(submission) or `Cancelled` (withdrawal); in particular no operation ever sets
it to `Failed` (and none sets `Running` or `Completed` either). -/
theorem status_transition_safety (op : Op) (j : Job) (db : DB) :
    ((applyOp op j db).1.status = j.status ∨
      (applyOp op j db).1.status = "" ∨
      (applyOp op j db).1.status = "Queued" ∨
      (applyOp op j db).1.status = "Cancelled") ∧
    ((applyOp op j db).1.status = "Failed" → j.status = "Failed") := by
  cases op <;> dsimp only [applyOp]
  · exact ⟨Or.inr (Or.inl rfl),
      fun h => by simp [before_save, reset_task_flags] at h⟩
  · exact ⟨Or.inr (Or.inr (Or.inl rfl)), fun h => by simp [on_submit] at h⟩
  · exact ⟨Or.inr (Or.inr (Or.inr rfl)), fun h => by simp [on_cancel] at h⟩
  · exact ⟨Or.inl (delete_bins_status j db),
      fun h => by rw [← delete_bins_status j db]; exact h⟩
  · exact ⟨Or.inl (delete_lead_addresses_status j db),
      fun h => by rw [← delete_lead_addresses_status j db]; exact h⟩
  · exact ⟨Or.inl (reset_company_values_status j db),
      fun h => by rw [← reset_company_values_status j db]; exact h⟩
  · exact ⟨Or.inl (delete_notifications_status j db),
      fun h => by rw [← delete_notifications_status j db]; exact h⟩
  · exact ⟨Or.inl (init_doctypes_status j db),
      fun h => by rw [← init_doctypes_status j db]; exact h⟩
  · exact ⟨Or.inl (delete_company_transactions_status j db),
      fun h => by rw [← delete_company_transactions_status j db]; exact h⟩
  · exact ⟨Or.inl (start_deletion_process_status j db),
      fun h => by rw [← start_deletion_process_status j db]; exact h⟩

/-- Witness for C6: submitting a fresh job yields status `Queued`, never
`Failed`. -/
theorem status_transition_safety_witness :
    (applyOp Op.onSubmit baseJob emptyDB).1.status ≠ "Failed" :=
  fun h =>
    absurd ((status_transition_safety Op.onSubmit baseJob emptyDB).2 h) (by decide)

/-- C8: `validate` raises `PermissionDenied` for a non-privileged caller;
for a privileged caller it raises `InvalidConfiguration` exactly when some
ignored-types entry is outside the resolver's computed set (built-ins plus
hooks), and passes otherwise. -/
theorem validate_contract (hooks : List String) (j : Job) :
    (validate false hooks j = .error .permissionDenied) ∧
    ((j.doctypes_to_be_ignored.any fun d =>
        !(get_doctypes_to_be_ignored hooks).contains d.doctype_name) = true →
      validate true hooks j = .error .invalidConfiguration) ∧
    ((j.doctypes_to_be_ignored.all fun d =>
        (get_doctypes_to_be_ignored hooks).contains d.doctype_name) = true →
      validate true hooks j = .ok ()) := by
  refine ⟨rfl, ?_, ?_⟩
  · intro h
    obtain ⟨d, hd, hpred⟩ := List.any_eq_true.mp h
    have hsome : (j.doctypes_to_be_ignored.find? fun d =>
        !(get_doctypes_to_be_ignored hooks).contains d.doctype_name).isSome := by
      rw [List.find?_isSome]
      exact ⟨d, hd, hpred⟩
    obtain ⟨w, hw⟩ := Option.isSome_iff_exists.mp hsome
    show validate_doctypes_to_be_ignored hooks j = _
    unfold validate_doctypes_to_be_ignored
    rw [hw]
  · intro h
    have hnone : (j.doctypes_to_be_ignored.find? fun d =>
        !(get_doctypes_to_be_ignored hooks).contains d.doctype_name) = none := by
      rw [List.find?_eq_none]
      intro d hd
      simpa using List.all_eq_true.mp h d hd
    show validate_doctypes_to_be_ignored hooks j = _
    unfold validate_doctypes_to_be_ignored
    rw [hnone]

/-- Witness for C8 at concrete jobs and hook configuration. -/
theorem validate_contract_witness :
    validate false hooksW goodIgnoreJob = .error .permissionDenied ∧
    validate true hooksW badIgnoreJob = .error .invalidConfiguration ∧
    validate true hooksW goodIgnoreJob = .ok () :=
  ⟨(validate_contract hooksW goodIgnoreJob).1,
   (validate_contract hooksW badIgnoreJob).2.1 (by decide),
   (validate_contract hooksW goodIgnoreJob).2.2 (by decide)⟩

/-- C2: evaluating the transaction-deletion stage on the scenario.  The
zero-count entry (`Quotation`) is marked done in the same invocation with no
batch fetch, and all three `Sales Invoice` records, their comments and their
child rows are gone — but the `Sales Invoice` entry's `done` flag is still
false, the stage checkpoint is already set, and the re-entrant continuation
the stage scheduled is a complete no-op, so `done` never becomes true. -/
theorem transaction_stage_scenario_eval :
    (delete_company_transactions scenarioJob scenarioDB).job.doctypes =
      [⟨"Sales Invoice", "company", 0, false⟩,
       ⟨"Quotation", "company", 0, true⟩] ∧
    (delete_company_transactions scenarioJob scenarioDB).db.docs = [] ∧
    (delete_company_transactions scenarioJob scenarioDB).db.comments = [] ∧
    (delete_company_transactions scenarioJob scenarioDB).job.delete_transactions
      = true ∧
    (delete_company_transactions scenarioJob scenarioDB).sched =
      ["delete_company_transactions"] ∧
    delete_company_transactions
        (delete_company_transactions scenarioJob scenarioDB).job
        (delete_company_transactions scenarioJob scenarioDB).db =
      ⟨(delete_company_transactions scenarioJob scenarioDB).job,
       (delete_company_transactions scenarioJob scenarioDB).db, []⟩ := by
  decide

lemma delete_child_rows_foldl_doctypes (refs : List String) :
    ∀ (ts : List String) (db : DB),
      (ts.foldl (fun a t => delete_child_rows a t refs) db).doctypes
        = db.doctypes := by
  intro ts
  induction ts with
  | nil => intro db; rfl
  | cons t rest ih => intro db; rw [List.foldl_cons]; exact ih _

lemma delete_child_tables_doctypes (db : DB) (dt : String) (refs : List String) :
    (delete_child_tables db dt refs).doctypes = db.doctypes := by
  unfold delete_child_tables
  exact delete_child_rows_foldl_doctypes refs _ db

lemma autoname_of_eq_of_doctypes (X Y : DB) (dt : String)
    (h : X.doctypes = Y.doctypes) : autoname_of X dt = autoname_of Y dt := by
  unfold autoname_of
  rw [h]

/-- The transaction-deletion loop on a one-entry inventory whose doctype is
live, not done, and has no naming pattern: the surviving records are those of
the data store after dependent-artifact cleanup, minus every record matching
the company filter. -/
lemma loop_single_no_autoname (company : String) (db : DB) (it : InventoryItem)
    (hguard : (it.doctype_name != tdr_doctype && !it.done) = true)
    (hpos : 0 < get_number_of_docs_linked_with_specified_company db
      it.doctype_name it.docfield_name company)
    (hauto : autoname_of db it.doctype_name = none) :
    (delete_company_transactions_loop company db [it]).1.docs =
      (delete_child_tables
        (unlink_attachments
          (delete_comments
            (delete_communications
              (delete_version_log db it.doctype_name
                (fetch_batch db it.doctype_name it.docfield_name company))
              it.doctype_name (fetch_batch db it.doctype_name it.docfield_name company))
            it.doctype_name (fetch_batch db it.doctype_name it.docfield_name company))
          it.doctype_name (fetch_batch db it.doctype_name it.docfield_name company))
        it.doctype_name
        (fetch_batch db it.doctype_name it.docfield_name company)).docs.filter
        (fun d => !(d.doctype == it.doctype_name &&
          lookupField d it.docfield_name == some company)) := by
  unfold delete_company_transactions_loop
  rw [if_pos hguard]
  dsimp only
  rw [if_pos hpos]
  dsimp only
  generalize fetch_batch db it.doctype_name it.docfield_name company = R
  have hX : (delete_docs_linked_with_specified_company
      (delete_child_tables
        (unlink_attachments
          (delete_comments
            (delete_communications
              (delete_version_log db it.doctype_name R)
              it.doctype_name R)
            it.doctype_name R)
          it.doctype_name R)
        it.doctype_name R)
      it.doctype_name it.docfield_name company).doctypes = db.doctypes :=
    delete_child_tables_doctypes _ _ _
  rw [autoname_of_eq_of_doctypes _ db _ hX, hauto]
  rfl

set_option maxRecDepth 40000 in
/-- C1: the batch fetch is bounded by `batch_size`, but the delete that
follows it removes every record matching the company filter — here
`batch_size + 1` of them in a single batch operation, one more than the
claimed bound, so the deleted records are a strict superset of the fetched
batch. -/
theorem batch_delete_exceeds_batch_size :
    (fetch_batch bigDB "Sales Invoice" "company" "C1").length = batch_size ∧
    bigDB.docs.length = batch_size + 1 ∧
    (delete_company_transactions bigJob bigDB).db.docs.length = 0 := by
  have hdocs : bigDB.docs = bigDocs := rfl
  have hall : ∀ d ∈ bigDocs,
      (d.doctype == "Sales Invoice" && lookupField d "company" == some "C1")
        = true := by
    intro d hd
    obtain ⟨i, -, rfl⟩ := List.mem_map.mp hd
    rfl
  have hfilter : bigDocs.filter (fun d =>
      d.doctype == "Sales Invoice" && lookupField d "company" == some "C1")
      = bigDocs :=
    List.filter_eq_self.mpr hall
  have hlen : bigDocs.length = batch_size + 1 := by
    unfold bigDocs
    rw [List.length_map, List.length_range]
  have hnil : bigDocs.filter (fun d =>
      !(d.doctype == "Sales Invoice" && lookupField d "company" == some "C1"))
      = [] := by
    rw [List.filter_eq_nil_iff]
    intro d hd
    simp [hall d hd]
  refine ⟨?_, by rw [hdocs, hlen], ?_⟩
  · unfold fetch_batch
    rw [hdocs, hfilter, List.length_map, List.length_take, hlen]
    exact Nat.min_eq_left (Nat.le_succ _)
  · have hcount : 0 < get_number_of_docs_linked_with_specified_company bigDB
        "Sales Invoice" "company" "C1" := by
      unfold get_number_of_docs_linked_with_specified_company
      rw [hdocs, hfilter, hlen]
      omega
    unfold delete_company_transactions
    rw [if_pos (show (!bigJob.delete_transactions) = true from rfl)]
    dsimp only
    rw [show bigJob.company = "C1" from rfl,
      show bigJob.doctypes = [⟨"Sales Invoice", "company", 0, false⟩] from rfl]
    rw [loop_single_no_autoname "C1" bigDB ⟨"Sales Invoice", "company", 0, false⟩
      (by decide) hcount rfl]
    dsimp only
    rw [show (delete_child_tables
        (unlink_attachments
          (delete_comments
            (delete_communications
              (delete_version_log bigDB "Sales Invoice"
                (fetch_batch bigDB "Sales Invoice" "company" "C1"))
              "Sales Invoice" (fetch_batch bigDB "Sales Invoice" "company" "C1"))
            "Sales Invoice" (fetch_batch bigDB "Sales Invoice" "company" "C1"))
          "Sales Invoice" (fetch_batch bigDB "Sales Invoice" "company" "C1"))
        "Sales Invoice"
        (fetch_batch bigDB "Sales Invoice" "company" "C1")).docs = bigDB.docs
      from rfl]
    rw [hdocs, hnil]
    rfl

lemma init_fold_mem (db : DB) (company : String) (tables : List String) :
    ∀ (dfs : List DocFieldMeta) (acc : Job) (dt : String),
      (∃ e ∈ (dfs.foldl (init_step db company tables) acc).doctypes,
        e.doctype_name = dt) ↔
      ((∃ e ∈ acc.doctypes, e.doctype_name = dt) ∨
        ∃ f ∈ dfs, f.parent = dt ∧ f.parent ≠ tdr_doctype ∧
          tables.contains f.parent = false ∧
          get_number_of_docs_linked_with_specified_company db f.parent
            f.fieldname company ≠ 0) := by
  intro dfs
  induction dfs with
  | nil => intro acc dt; simp
  | cons f rest ih =>
    intro acc dt
    rw [List.foldl_cons, ih]
    constructor
    · rintro (h1 | h2)
      · -- membership in (init_step acc f).doctypes
        unfold init_step at h1
        by_cases htdr : (f.parent != tdr_doctype) = true
        · rw [if_pos htdr] at h1
          by_cases hcnt : 0 < get_number_of_docs_linked_with_specified_company
              db f.parent f.fieldname company
          · rw [if_pos hcnt] at h1
            unfold populate_doctypes_table at h1
            by_cases htab : tables.contains f.parent = true
            · rw [if_pos htab] at h1
              exact Or.inl h1
            · rw [if_neg htab] at h1
              obtain ⟨e, he, hedt⟩ := h1
              rcases List.mem_append.mp he with he' | he'
              · exact Or.inl ⟨e, he', hedt⟩
              · refine Or.inr ⟨f, List.mem_cons_self _ _, ?_, ?_, ?_, ?_⟩
                · rcases List.mem_singleton.mp he' with rfl
                  exact hedt.symm ▸ rfl
                · exact bne_iff_ne.mp htdr
                · simpa using htab
                · omega
          · rw [if_neg hcnt] at h1
            exact Or.inl h1
        · rw [if_neg htdr] at h1
          exact Or.inl h1
      · obtain ⟨g, hg, hgc⟩ := h2
        exact Or.inr ⟨g, List.mem_cons_of_mem _ hg, hgc⟩
    · rintro (h1 | ⟨g, hg, hdt, htdr, htab, hcnt⟩)
      · -- acc-membership is preserved by init_step
        left
        unfold init_step populate_doctypes_table
        obtain ⟨e, he, hedt⟩ := h1
        split
        · split
          · split
            · exact ⟨e, he, hedt⟩
            · exact ⟨e, List.mem_append_left _ he, hedt⟩
          · exact ⟨e, he, hedt⟩
        · exact ⟨e, he, hedt⟩
      · rcases List.mem_cons.mp hg with rfl | hg'
        · -- the head field itself puts dt into the inventory
          left
          unfold init_step
          rw [if_pos (bne_iff_ne.mpr htdr), if_pos (by omega)]
          unfold populate_doctypes_table
          rw [if_neg (fun hc => by rw [hc] at htab; exact Bool.noConfusion htab)]
          exact ⟨⟨g.parent, g.fieldname, 0, false⟩,
            List.mem_append_right _ (List.mem_singleton_self _), hdt⟩
        · exact Or.inr ⟨g, hg', hdt, htdr, htab, hcnt⟩

/-- C4 (amended): after inventory initialization on a fresh job, a record
type is in the inventory exactly when some `DocField` row gives it a
Link-to-Company field, it is not in the computed ignore list (job table plus
singletons), it is not the job's own doctype, it is not a child/table type,
and it has at least one record referencing the target company. -/
theorem inventory_after_init_characterization (j : Job) (db : DB)
    (hflag : j.init_doctypes_table = false) (hinv : j.doctypes = []) (dt : String) :
    (inventory_names (init_doctypes_to_be_deleted_table j db).job).contains dt
        = true ↔
      ∃ f ∈ db.docfields,
        (f.fieldtype == "Link" && f.options == "Company" &&
          !((get_doctypes_to_be_ignored_list j db).contains f.parent)) = true ∧
        f.parent = dt ∧ dt ≠ tdr_doctype ∧
        (get_all_child_doctypes db).contains dt = false ∧
        get_number_of_docs_linked_with_specified_company db dt f.fieldname
          j.company ≠ 0 := by
  have hstage : (init_doctypes_to_be_deleted_table j db).job.doctypes =
      ((get_doctypes_with_company_field db
          (get_doctypes_to_be_ignored_list j db)).foldl
        (init_step db j.company (get_all_child_doctypes db)) j).doctypes := by
    unfold init_doctypes_to_be_deleted_table
    rw [if_pos (by rw [hflag]; rfl)]
  have hmem : (inventory_names (init_doctypes_to_be_deleted_table j db).job).contains
      dt = true ↔
      ∃ e ∈ (init_doctypes_to_be_deleted_table j db).job.doctypes,
        e.doctype_name = dt := by
    unfold inventory_names
    simp
  rw [hmem, hstage, init_fold_mem, hinv]
  simp only [List.not_mem_nil, false_and, exists_false, exists_prop, false_or]
  constructor
  · rintro ⟨f, hf, hdt, htdr, htab, hcnt⟩
    have hf' := List.mem_filter.mp hf
    exact ⟨f, hf'.1, hf'.2, hdt, hdt ▸ htdr, hdt ▸ htab, hdt ▸ hcnt⟩
  · rintro ⟨f, hf, hp, hdt, htdr, htab, hcnt⟩
    refine ⟨f, List.mem_filter.mpr ⟨hf, hp⟩, hdt, hdt.symm ▸ htdr, ?_, ?_⟩
    · rw [hdt]; exact htab
    · rw [hdt]; exact hcnt

/-- C4 counterexample: `Sales Invoice Item` has a Link-to-Company field, is in
no ignore list, and has one matching record, yet inventory initialization
leaves the inventory empty, because child-table types are excluded by
`populate_doctypes_table`. -/
theorem child_table_type_missing_from_inventory :
    (get_doctypes_to_be_ignored_list baseJob childOnlyDB).contains
        "Sales Invoice Item" = false ∧
    (childOnlyDB.docfields.any fun f => f.parent == "Sales Invoice Item" &&
      f.fieldtype == "Link" && f.options == "Company") = true ∧
    get_number_of_docs_linked_with_specified_company childOnlyDB
      "Sales Invoice Item" "company" "C1" = 1 ∧
    inventory_names (init_doctypes_to_be_deleted_table baseJob childOnlyDB).job
      = [] := by
  decide

/-- Witness for C4 (amended) at a concrete store: the ordinary type with a
matching record does enter the inventory. -/
theorem inventory_after_init_characterization_witness :
    (inventory_names
      (init_doctypes_to_be_deleted_table baseJob simpleDB).job).contains
        "Sales Invoice" = true :=
  (inventory_after_init_characterization baseJob simpleDB rfl rfl
    "Sales Invoice").mpr
    ⟨⟨"Sales Invoice", "company", "Link", "Company"⟩, by decide, by decide, rfl,
      by decide, by decide, by decide⟩

lemma replaceCharsAux_all_digits (pat : List Char) (c0 : Char)
    (hc0 : c0 ∈ pat) (hc0d : isDigitChar c0 = false) :
    ∀ (fuel : Nat) (l : List Char), l.length ≤ fuel →
      l.all isDigitChar = true → replaceCharsAux pat [] fuel l = l := by
  intro fuel
  induction fuel with
  | zero =>
    intro l hl _
    cases l with
    | nil => rfl
    | cons c cs => simp at hl
  | succ f ih =>
    intro l hl hdig
    cases l with
    | nil => rfl
    | cons c cs =>
      unfold replaceCharsAux
      dsimp only
      have hnp : pat.isPrefixOf (c :: cs) = false := by
        by_contra hcon
        have hp : pat <+: c :: cs :=
          List.isPrefixOf_iff_prefix.mp (by
            cases hx : pat.isPrefixOf (c :: cs) with
            | true => rfl
            | false => exact absurd hx hcon)
        have hmem : c0 ∈ c :: cs := hp.subset hc0
        have := List.all_eq_true.mp hdig c0 hmem
        rw [this] at hc0d
        exact Bool.noConfusion hc0d
      rw [if_neg (by rw [hnp, Bool.and_false]; exact Bool.false_ne_true)]
      have hcs : cs.all isDigitChar = true := by
        simp only [List.all_cons, Bool.and_eq_true] at hdig
        exact hdig.2
      rw [ih cs (by simpa using Nat.le_of_succ_le_succ hl) hcs]

lemma replaceChars_strip_lead (pat ds : List Char) (c0 : Char)
    (hc0 : c0 ∈ pat) (hc0d : isDigitChar c0 = false)
    (hds : ds.all isDigitChar = true) :
    replaceChars pat [] (pat ++ ds) = ds := by
  unfold replaceChars
  cases hp : pat with
  | nil => rw [hp] at hc0; cases hc0
  | cons p ps =>
    rw [← hp]
    have hlen : (pat ++ ds).length = pat.length + ds.length := List.length_append _ _
    rw [hlen]
    have hpos : 0 < pat.length := by rw [hp]; exact Nat.succ_pos _
    obtain ⟨f, hf⟩ : ∃ f, pat.length + ds.length = f + 1 :=
      ⟨pat.length + ds.length - 1, by omega⟩
    rw [hf]
    show replaceCharsAux pat [] (f + 1) (pat ++ ds) = ds
    have hco : pat ++ ds = p :: (ps ++ ds) := by rw [hp]; rfl
    rw [hco]
    unfold replaceCharsAux
    dsimp only
    have hpre : pat.isPrefixOf (p :: (ps ++ ds)) = true := by
      rw [← hco]
      exact List.isPrefixOf_iff_prefix.mpr (List.prefix_append _ _)
    rw [if_pos (by rw [hpre, Bool.and_true]; simp [hp])]
    rw [← hco, List.nil_append]
    have hdrop : (pat ++ ds).drop pat.length = ds := List.drop_left _ _
    rw [hdrop]
    exact replaceCharsAux_all_digits pat c0 hc0 hc0d f ds (by omega) hds

lemma strReplace_strip_lead (pfx ds : String) (c0 : Char)
    (hc0 : c0 ∈ pfx.data) (hc0d : isDigitChar c0 = false)
    (hds : ds.data.all isDigitChar = true) :
    strReplace (pfx ++ ds) pfx "" = ds := by
  unfold strReplace
  show (⟨replaceChars pfx.data [] (pfx ++ ds).data⟩ : String) = ds
  rw [show (pfx ++ ds).data = pfx.data ++ ds.data from rfl]
  rw [replaceChars_strip_lead pfx.data ds.data c0 hc0 hc0d hds]

lemma cint_all_digits (ds : String) (n : Nat)
    (hn : digitsToNat ds.data = some n) : cint ds = (n : Int) := by
  unfold cint
  split
  · next heq =>
    exfalso
    rw [heq] at hn
    unfold digitsToNat at hn
    split at hn
    · exact Option.noConfusion hn
    · split at hn
      · next hall =>
        simp only [List.all_cons, Bool.and_eq_true] at hall
        exact absurd hall.1 (by decide)
      · exact Option.noConfusion hn
  · next heq =>
    rw [hn]

lemma update_naming_series_dot (db : DB) (ns dt pfx tail ds : String) (n : Nat)
    (hdot : containsChar ns '.' = true)
    (hsplit : rsplit1 ns "." = some (pfx, tail))
    (c0 : Char) (hc0 : c0 ∈ pfx.data) (hc0d : isDigitChar c0 = false)
    (hds : ds.data.all isDigitChar = true)
    (hn : digitsToNat ds.data = some n)
    (hmax : maxString (surviving_names db dt pfx) = some (pfx ++ ds)) :
    update_naming_series db ns dt =
      { db with series := db.series.map fun s =>
          if s.name == pfx then { s with current := (n : Int) } else s } := by
  unfold update_naming_series
  rw [if_pos hdot, hsplit]
  dsimp only
  rw [hmax]
  dsimp only
  rw [strReplace_strip_lead pfx ds c0 hc0 hc0d hds, cint_all_digits ds n hn]

lemma update_naming_series_dot_none (db : DB) (ns dt pfx tail : String)
    (hdot : containsChar ns '.' = true)
    (hsplit : rsplit1 ns "." = some (pfx, tail))
    (hmax : maxString (surviving_names db dt pfx) = none) :
    update_naming_series db ns dt =
      { db with series := db.series.map fun s =>
          if s.name == pfx then { s with current := (0 : Int) } else s } := by
  unfold update_naming_series
  rw [if_pos hdot, hsplit]
  dsimp only
  rw [hmax]

lemma delete_child_rows_foldl_series (refs : List String) :
    ∀ (ts : List String) (db : DB),
      (ts.foldl (fun a t => delete_child_rows a t refs) db).series = db.series := by
  intro ts
  induction ts with
  | nil => intro db; rfl
  | cons t rest ih => intro db; rw [List.foldl_cons]; exact ih _

lemma delete_child_tables_series (db : DB) (dt : String) (refs : List String) :
    (delete_child_tables db dt refs).series = db.series := by
  unfold delete_child_tables
  exact delete_child_rows_foldl_series refs _ db

lemma loop_preserves_series (company : String) :
    ∀ (items : List InventoryItem) (db : DB),
      (∀ m ∈ db.doctypes, ∀ ns, m.autoname = some ns →
        containsChar ns '#' = false) →
      (delete_company_transactions_loop company db items).1.series = db.series ∧
      (delete_company_transactions_loop company db items).1.doctypes
        = db.doctypes := by
  intro items
  induction items with
  | nil => intro db h; exact ⟨rfl, rfl⟩
  | cons it rest ih =>
    intro db h
    unfold delete_company_transactions_loop
    split
    · dsimp only
      split
      · -- positive count: artifact cleanup + delete + naming check, then recurse
        generalize hR : fetch_batch db it.doctype_name it.docfield_name company = R
        have hXdt : (delete_docs_linked_with_specified_company
            (delete_child_tables
              (unlink_attachments
                (delete_comments
                  (delete_communications
                    (delete_version_log db it.doctype_name R)
                    it.doctype_name R)
                  it.doctype_name R)
                it.doctype_name R)
              it.doctype_name R)
            it.doctype_name it.docfield_name company).doctypes = db.doctypes :=
          delete_child_tables_doctypes _ _ _
        have hXser : (delete_docs_linked_with_specified_company
            (delete_child_tables
              (unlink_attachments
                (delete_comments
                  (delete_communications
                    (delete_version_log db it.doctype_name R)
                    it.doctype_name R)
                  it.doctype_name R)
                it.doctype_name R)
              it.doctype_name R)
            it.doctype_name it.docfield_name company).series = db.series :=
          delete_child_tables_series _ _ _
        rw [autoname_of_eq_of_doctypes _ db _ hXdt]
        have h' : ∀ m ∈ (delete_docs_linked_with_specified_company
            (delete_child_tables
              (unlink_attachments
                (delete_comments
                  (delete_communications
                    (delete_version_log db it.doctype_name R)
                    it.doctype_name R)
                  it.doctype_name R)
                it.doctype_name R)
              it.doctype_name R)
            it.doctype_name it.docfield_name company).doctypes,
            ∀ ns, m.autoname = some ns → containsChar ns '#' = false := by
          rw [hXdt]; exact h
        cases hauto : autoname_of db it.doctype_name with
        | none =>
          dsimp only
          obtain ⟨ihs, ihd⟩ := ih _ h'
          exact ⟨ihs.trans hXser, ihd.trans hXdt⟩
        | some ns =>
          have hns : containsChar ns '#' = false := by
            unfold autoname_of at hauto
            obtain ⟨m, hm, hma⟩ := Option.bind_eq_some.mp hauto
            exact h m (List.mem_of_find?_eq_some hm) ns hma
          dsimp only
          rw [if_neg (by rw [hns]; exact Bool.false_ne_true)]
          obtain ⟨ihs, ihd⟩ := ih _ h'
          exact ⟨ihs.trans hXser, ihd.trans hXdt⟩
      · dsimp only
        exact ⟨(ih db h).1, (ih db h).2⟩
    · dsimp only
      exact ⟨(ih db h).1, (ih db h).2⟩

/-- C7: for a naming pattern split at its final `.`, the reconciler stores,
for the pattern's series name, the numeric suffix of the lexicographically
maximum surviving identifier extending that name (here a digit suffix after a
non-digit-bearing lead), or 0 when no identifier survives; other series rows
are untouched, and when no doctype's pattern has a `#` placeholder the
transaction-deletion stage leaves the series table completely untouched. -/
theorem naming_series_reconciliation :
    (∀ (db : DB) (ns dt pfx tail ds : String) (n : Nat) (c0 : Char),
      containsChar ns '.' = true →
      rsplit1 ns "." = some (pfx, tail) →
      c0 ∈ pfx.data → isDigitChar c0 = false →
      ds.data.all isDigitChar = true →
      digitsToNat ds.data = some n →
      maxString (surviving_names db dt pfx) = some (pfx ++ ds) →
      update_naming_series db ns dt =
        { db with series := db.series.map fun s =>
            if s.name == pfx then { s with current := (n : Int) } else s }) ∧
    (∀ (db : DB) (ns dt pfx tail : String),
      containsChar ns '.' = true →
      rsplit1 ns "." = some (pfx, tail) →
      maxString (surviving_names db dt pfx) = none →
      update_naming_series db ns dt =
        { db with series := db.series.map fun s =>
            if s.name == pfx then { s with current := (0 : Int) } else s }) ∧
    (∀ (j : Job) (db : DB),
      (∀ m ∈ db.doctypes, ∀ ns, m.autoname = some ns →
        containsChar ns '#' = false) →
      (delete_company_transactions j db).db.series = db.series) := by
  refine ⟨?_, ?_, ?_⟩
  · intro db ns dt pfx tail ds n c0 h1 h2 h3 h4 h5 h6 h7
    exact update_naming_series_dot db ns dt pfx tail ds n h1 h2 c0 h3 h4 h5 h6 h7
  · intro db ns dt pfx tail h1 h2 h3
    exact update_naming_series_dot_none db ns dt pfx tail h1 h2 h3
  · intro j db h
    unfold delete_company_transactions
    split
    · dsimp only
      exact (loop_preserves_series j.company j.doctypes db h).1
    · rfl

/-- Witness for C7 at concrete stores: max survivor `INV-00042` resets the
`INV-` counter to 42; no survivors resets it to 0; a store with no `#` in any
pattern keeps its series rows through the deletion stage. -/
theorem naming_series_reconciliation_witness :
    update_naming_series seriesDB "INV-.#####" "Sales Invoice" =
      { seriesDB with series := seriesDB.series.map fun s =>
          if s.name == "INV-" then { s with current := (42 : Int) } else s } ∧
    update_naming_series seriesDB2 "INV-.#####" "Sales Invoice" =
      { seriesDB2 with series := seriesDB2.series.map fun s =>
          if s.name == "INV-" then { s with current := (0 : Int) } else s } ∧
    (delete_company_transactions baseJob simpleDB).db.series =
      simpleDB.series :=
  ⟨naming_series_reconciliation.1 seriesDB "INV-.#####" "Sales Invoice" "INV-"
      "#####" "00042" 42 '-' (by decide) (by decide) (by decide) (by decide)
      (by decide) (by decide) (by decide),
   naming_series_reconciliation.2.1 seriesDB2 "INV-.#####" "Sales Invoice"
      "INV-" "#####" (by decide) (by decide) (by decide),
   naming_series_reconciliation.2.2 baseJob simpleDB (by
      intro m hm ns hns
      have hm' : m ∈ [(⟨"Sales Invoice", false, false, none⟩ : DocTypeMeta)] := hm
      rw [List.mem_singleton] at hm'
      subst hm'
      exact Option.noConfusion hns)⟩

lemma lead_name_mem (j : Job) (db : DB) (lead : LeadRec)
    (hlead : lead ∈ db.leads) (hco : lead.company = j.company) :
    lead.name ∈ lead_names j db := by
  unfold lead_names
  exact List.mem_map_of_mem _
    (List.mem_filter.mpr ⟨hlead, by rw [hco]; exact beq_self_eq_true _⟩)

/-- C9: the lead/address cleanup preserves an address linked both to a lead
of the target company and to a record via a different link doctype, removes
the lead-linkage row pointing at it, keeps the other linkage row, nulls out
every customer lead reference to the company's leads, and deletes an address
whose dynamic links are all of link doctype `Lead` pointing at those leads. -/
theorem lead_address_cleanup (j : Job) (db : DB)
    (hflag : j.delete_leads_and_addresses = false)
    (a1 : String) (lead : LeadRec) (rowOther : DynamicLinkRec) (a2 : String)
    (hlead : lead ∈ db.leads) (hleadco : lead.company = j.company)
    (ha1 : a1 ∈ db.addresses)
    (hrowL : (⟨a1, "Address", "Lead", lead.name⟩ : DynamicLinkRec)
      ∈ db.dynamic_links)
    (hrowO : rowOther ∈ db.dynamic_links) (hrowOp : rowOther.parent = a1)
    (hrowOd : rowOther.link_doctype ≠ "Lead")
    (ha2 : a2 ∈ db.addresses)
    (ha2link : ∃ dl ∈ db.dynamic_links, dl.parent = a2 ∧
      dl.link_name ∈ lead_names j db)
    (ha2only : ∀ dl ∈ db.dynamic_links, dl.parent = a2 →
      dl.link_doctype = "Lead") :
    a1 ∈ (delete_lead_addresses j db).db.addresses ∧
    (⟨a1, "Address", "Lead", lead.name⟩ : DynamicLinkRec) ∉
      (delete_lead_addresses j db).db.dynamic_links ∧
    rowOther ∈ (delete_lead_addresses j db).db.dynamic_links ∧
    (∀ c ∈ (delete_lead_addresses j db).db.customers,
      ∀ ln, c.lead_name = some ln → ln ∉ lead_names j db) ∧
    a2 ∉ (delete_lead_addresses j db).db.addresses := by
  have hLname : lead.name ∈ lead_names j db := lead_name_mem j db lead hlead hleadco
  -- the parent list computed from the dynamic links
  have ha1addrs : a1 ∈ (db.dynamic_links.filter
      (fun dl => (lead_names j db).contains dl.link_name)).map (·.parent) := by
    refine List.mem_map.mpr ⟨⟨a1, "Address", "Lead", lead.name⟩, ?_, rfl⟩
    exact List.mem_filter.mpr ⟨hrowL, List.elem_eq_true_of_mem hLname⟩
  obtain ⟨dl2, hdl2, hdl2p, hdl2n⟩ := ha2link
  have ha2addrs : a2 ∈ (db.dynamic_links.filter
      (fun dl => (lead_names j db).contains dl.link_name)).map (·.parent) := by
    refine List.mem_map.mpr ⟨dl2, ?_, hdl2p⟩
    exact List.mem_filter.mpr ⟨hdl2, List.elem_eq_true_of_mem hdl2n⟩
  have hmulti1 : has_multiple_link_doctypes db.dynamic_links a1 = true := by
    unfold has_multiple_link_doctypes
    refine List.any_eq_true.mpr ⟨⟨a1, "Address", "Lead", lead.name⟩, hrowL, ?_⟩
    refine (Bool.and_eq_true _ _) ▸ (And.intro (beq_self_eq_true _) ?_)
    refine List.any_eq_true.mpr ⟨rowOther, hrowO, ?_⟩
    refine (Bool.and_eq_true _ _) ▸ (And.intro ?_ ?_)
    · rw [hrowOp]; exact beq_self_eq_true _
    · exact bne_iff_ne.mpr (fun he => hrowOd he.symm)
  have hmulti2 : has_multiple_link_doctypes db.dynamic_links a2 = false := by
    unfold has_multiple_link_doctypes
    refine List.any_eq_false.mpr ?_
    intro d1 h1
    intro hcon
    rw [Bool.and_eq_true] at hcon
    obtain ⟨h1p, h1rest⟩ := hcon
    obtain ⟨d2, h2, h2c⟩ := List.any_eq_true.mp h1rest
    rw [Bool.and_eq_true] at h2c
    obtain ⟨h2p, h2ne⟩ := h2c
    have e1 : d1.link_doctype = "Lead" := ha2only d1 h1 (beq_iff_eq.mp h1p)
    have e2 : d2.link_doctype = "Lead" := ha2only d2 h2 (beq_iff_eq.mp h2p)
    rw [e1, e2] at h2ne
    exact absurd rfl (bne_iff_ne.mp h2ne)
  -- evaluate the stage on the unset checkpoint
  unfold delete_lead_addresses
  rw [if_pos (by rw [hflag]; rfl)]
  dsimp only
  rw [if_neg (fun hc : (lead_names j db).isEmpty = true => by
    rw [List.isEmpty_iff.mp hc] at hLname
    cases hLname)]
  rw [if_neg (fun hc : ((db.dynamic_links.filter
      (fun dl => (lead_names j db).contains dl.link_name)).map (·.parent)).isEmpty
        = true => by
    rw [List.isEmpty_iff.mp hc] at ha1addrs
    cases ha1addrs)]
  dsimp only
  refine ⟨?_, ?_, ?_, ?_, ?_⟩
  · refine List.mem_filter.mpr ⟨ha1, ?_⟩
    rw [hmulti1]
    simp
  · intro hmem
    have hpred := (List.mem_filter.mp hmem).2
    dsimp only at hpred
    rw [show (lead_names j db).contains lead.name = true from
      List.elem_eq_true_of_mem hLname] at hpred
    simp at hpred
  · refine List.mem_filter.mpr ⟨hrowO, ?_⟩
    have : (rowOther.link_doctype == "Lead") = false := by
      rw [beq_eq_false_iff_ne]
      exact hrowOd
    rw [this]
    simp
  · intro c hc ln hln
    obtain ⟨c0, hc0, rfl⟩ := List.mem_map.mp hc
    intro hlnmem
    by_cases hnul : (match c0.lead_name with
        | some ln0 => (lead_names j db).contains ln0
        | none => false) = true
    · rw [if_pos hnul] at hln
      exact Option.noConfusion hln
    · rw [if_neg hnul] at hln
      apply hnul
      rw [hln]
      exact List.elem_eq_true_of_mem hlnmem
  · intro hmem
    have hpred := (List.mem_filter.mp hmem).2
    rw [show ((db.dynamic_links.filter
        (fun dl => (lead_names j db).contains dl.link_name)).map
          (·.parent)).contains a2 = true from
      List.elem_eq_true_of_mem ha2addrs, hmulti2] at hpred
    simp at hpred

/-- Witness for C9 at the concrete store: `A1` survives, its lead-linkage row
is gone, the customer-linkage row remains, the customer's lead reference is
nulled, and `A2` is deleted. -/
theorem lead_address_cleanup_witness :
    "A1" ∈ (delete_lead_addresses baseJob leadDB).db.addresses ∧
    (⟨"A1", "Address", "Lead", "L1"⟩ : DynamicLinkRec) ∉
      (delete_lead_addresses baseJob leadDB).db.dynamic_links ∧
    (⟨"A1", "Address", "Customer", "CUST-9"⟩ : DynamicLinkRec) ∈
      (delete_lead_addresses baseJob leadDB).db.dynamic_links ∧
    (⟨"CUST-9", some "L1"⟩ : CustomerRec) ∉
      (delete_lead_addresses baseJob leadDB).db.customers ∧
    "A2" ∉ (delete_lead_addresses baseJob leadDB).db.addresses := by
  have H := lead_address_cleanup baseJob leadDB rfl "A1" ⟨"L1", "C1"⟩
    ⟨"A1", "Address", "Customer", "CUST-9"⟩ "A2"
    (by decide) rfl (by decide) (by decide) (by decide) rfl (by decide)
    (by decide) (by decide) (by decide)
  refine ⟨H.1, H.2.1, H.2.2.1, ?_, H.2.2.2.2⟩
  intro hmem
  exact absurd (by decide : "L1" ∈ lead_names baseJob leadDB)
    (H.2.2.2.1 ⟨"CUST-9", some "L1"⟩ hmem "L1" rfl)

lemma filter_filter_of_imp {α : Type} (p q : α → Bool)
    (h : ∀ a, q a = true → p a = true) :
    ∀ l : List α, (l.filter p).filter q = l.filter q := by
  intro l
  induction l with
  | nil => rfl
  | cons a as ih =>
    by_cases hq : q a = true
    · have hp := h a hq
      rw [List.filter_cons, if_pos hp, List.filter_cons, if_pos hq,
        List.filter_cons, if_pos hq, ih]
    · by_cases hp : p a = true
      · rw [List.filter_cons, if_pos hp, List.filter_cons,
          if_neg hq, List.filter_cons, if_neg hq, ih]
      · rw [List.filter_cons, if_neg hp, List.filter_cons, if_neg hq, ih]

lemma singleton_in_ignore_list (j : Job) (db : DB) (dt : String)
    (h : is_single db dt = true) :
    (get_doctypes_to_be_ignored_list j db).contains dt = true := by
  obtain ⟨m, hm, hmp⟩ := List.any_eq_true.mp h
  rw [Bool.and_eq_true] at hmp
  apply List.elem_eq_true_of_mem
  unfold get_doctypes_to_be_ignored_list
  apply List.mem_append_left
  have : dt = m.name := (beq_iff_eq.mp hmp.1).symm
  rw [this]
  exact List.mem_map_of_mem _ (List.mem_filter.mpr ⟨hm, hmp.2⟩)

lemma init_fold_entries (db : DB) (company : String) (tables : List String) :
    ∀ (dfs : List DocFieldMeta) (acc : Job) (e : InventoryItem),
      e ∈ (dfs.foldl (init_step db company tables) acc).doctypes →
      e ∈ acc.doctypes ∨ ∃ f ∈ dfs, e.doctype_name = f.parent := by
  intro dfs
  induction dfs with
  | nil => intro acc e he; exact Or.inl he
  | cons f rest ih =>
    intro acc e he
    rw [List.foldl_cons] at he
    rcases ih (init_step db company tables acc f) e he with h1 | ⟨g, hg, hgp⟩
    · unfold init_step populate_doctypes_table at h1
      split at h1
      · split at h1
        · split at h1
          · exact Or.inl h1
          · rcases List.mem_append.mp h1 with h2 | h2
            · exact Or.inl h2
            · rcases List.mem_singleton.mp h2 with rfl
              exact Or.inr ⟨f, List.mem_cons_self _ _, rfl⟩
        · exact Or.inl h1
      · exact Or.inl h1
    · exact Or.inr ⟨g, List.mem_cons_of_mem _ hg, hgp⟩

lemma delete_child_rows_foldl_docfields (refs : List String) :
    ∀ (ts : List String) (db : DB),
      (ts.foldl (fun a t => delete_child_rows a t refs) db).docfields
        = db.docfields := by
  intro ts
  induction ts with
  | nil => intro db; rfl
  | cons t rest ih => intro db; rw [List.foldl_cons]; exact ih _

lemma delete_child_tables_docfields (db : DB) (dt : String) (refs : List String) :
    (delete_child_tables db dt refs).docfields = db.docfields := by
  unfold delete_child_tables
  exact delete_child_rows_foldl_docfields refs _ db

lemma delete_child_rows_docs_of (db : DB) (t : String) (refs : List String)
    (dt : String) (hne : t ≠ dt) :
    docs_of (delete_child_rows db t refs) dt = docs_of db dt := by
  unfold docs_of delete_child_rows
  apply filter_filter_of_imp
  intro d hd
  have : (d.doctype == t) = false := by
    rw [beq_eq_false_iff_ne, beq_iff_eq.mp hd]
    exact fun he => hne he.symm
  rw [this]
  simp

lemma delete_child_tables_docs_of (dt : String) (refs : List String) :
    ∀ (ts : List String) (db : DB), (∀ t ∈ ts, t ≠ dt) →
      docs_of (ts.foldl (fun a t => delete_child_rows a t refs) db) dt
        = docs_of db dt := by
  intro ts
  induction ts with
  | nil => intro db _; rfl
  | cons t rest ih =>
    intro db hts
    rw [List.foldl_cons, ih _ (fun u hu => hts u (List.mem_cons_of_mem _ hu)),
      delete_child_rows_docs_of db t refs dt (hts t (List.mem_cons_self _ _))]

lemma update_naming_series_docs (db : DB) (ns dt : String) :
    (update_naming_series db ns dt).docs = db.docs := by
  unfold update_naming_series
  split
  · dsimp only
    cases rsplit1 ns "." with
    | none => rfl
    | some pr => rfl
  · dsimp only
    cases rsplit1 ns "\x7b" with
    | none => rfl
    | some pr => rfl

lemma delete_child_tables_docs_of_hyp (db : DB) (dtype : String)
    (refs : List String) (dt : String)
    (h : ∀ f ∈ db.docfields,
      (f.fieldtype == "Table" && f.parent == dtype) = true → f.options ≠ dt) :
    docs_of (delete_child_tables db dtype refs) dt = docs_of db dt := by
  unfold delete_child_tables
  apply delete_child_tables_docs_of
  intro t ht
  obtain ⟨f, hf, rfl⟩ := List.mem_map.mp ht
  exact h f (List.mem_filter.mp hf).1 (List.mem_filter.mp hf).2

lemma delete_docs_linked_docs_of (db : DB) (dtype fn company dt : String)
    (hne : dtype ≠ dt) :
    docs_of (delete_docs_linked_with_specified_company db dtype fn company) dt
      = docs_of db dt := by
  unfold docs_of delete_docs_linked_with_specified_company
  apply filter_filter_of_imp
  intro d hd
  have : (d.doctype == dtype) = false := by
    rw [beq_eq_false_iff_ne, beq_iff_eq.mp hd]
    exact fun he => hne he.symm
  rw [this]
  simp

lemma update_naming_series_docfields (db : DB) (ns dt : String) :
    (update_naming_series db ns dt).docfields = db.docfields := by
  unfold update_naming_series
  split
  · dsimp only
    cases rsplit1 ns "." with
    | none => rfl
    | some pr => rfl
  · dsimp only
    cases rsplit1 ns "\x7b" with
    | none => rfl
    | some pr => rfl

lemma loop_preserves_docs_of (company dt : String) :
    ∀ (items : List InventoryItem) (db : DB),
      (∀ it ∈ items, it.doctype_name ≠ dt) →
      (∀ it ∈ items, ∀ f ∈ db.docfields,
        (f.fieldtype == "Table" && f.parent == it.doctype_name) = true →
        f.options ≠ dt) →
      docs_of (delete_company_transactions_loop company db items).1 dt
        = docs_of db dt ∧
      (delete_company_transactions_loop company db items).1.docfields
        = db.docfields := by
  intro items
  induction items with
  | nil => intro db _ _; exact ⟨rfl, rfl⟩
  | cons it rest ih =>
    intro db h1 h2
    have h1r : ∀ u ∈ rest, u.doctype_name ≠ dt :=
      fun u hu => h1 u (List.mem_cons_of_mem _ hu)
    have h2r : ∀ u ∈ rest, ∀ f ∈ db.docfields,
        (f.fieldtype == "Table" && f.parent == u.doctype_name) = true →
        f.options ≠ dt :=
      fun u hu => h2 u (List.mem_cons_of_mem _ hu)
    unfold delete_company_transactions_loop
    split
    · dsimp only
      split
      · generalize fetch_batch db it.doctype_name it.docfield_name company = R
        have hch : docs_of (delete_child_tables
            (unlink_attachments
              (delete_comments
                (delete_communications
                  (delete_version_log db it.doctype_name R)
                  it.doctype_name R)
                it.doctype_name R)
              it.doctype_name R)
            it.doctype_name R) dt = docs_of db dt := by
          rw [delete_child_tables_docs_of_hyp
            (unlink_attachments
              (delete_comments
                (delete_communications
                  (delete_version_log db it.doctype_name R)
                  it.doctype_name R)
                it.doctype_name R)
              it.doctype_name R)
            it.doctype_name R dt
            (fun f hf hp => h2 it (List.mem_cons_self _ _) f hf hp)]
          rfl
        have hdf5 : (delete_child_tables
            (unlink_attachments
              (delete_comments
                (delete_communications
                  (delete_version_log db it.doctype_name R)
                  it.doctype_name R)
                it.doctype_name R)
              it.doctype_name R)
            it.doctype_name R).docfields = db.docfields :=
          delete_child_tables_docfields _ _ _
        have h6docs : docs_of (delete_docs_linked_with_specified_company
            (delete_child_tables
              (unlink_attachments
                (delete_comments
                  (delete_communications
                    (delete_version_log db it.doctype_name R)
                    it.doctype_name R)
                  it.doctype_name R)
                it.doctype_name R)
              it.doctype_name R)
            it.doctype_name it.docfield_name company) dt = docs_of db dt := by
          rw [delete_docs_linked_docs_of _ _ _ _ _
            (h1 it (List.mem_cons_self _ _)), hch]
        have h6df : (delete_docs_linked_with_specified_company
            (delete_child_tables
              (unlink_attachments
                (delete_comments
                  (delete_communications
                    (delete_version_log db it.doctype_name R)
                    it.doctype_name R)
                  it.doctype_name R)
                it.doctype_name R)
              it.doctype_name R)
            it.doctype_name it.docfield_name company).docfields = db.docfields :=
          hdf5
        cases hauto : autoname_of (delete_docs_linked_with_specified_company
            (delete_child_tables
              (unlink_attachments
                (delete_comments
                  (delete_communications
                    (delete_version_log db it.doctype_name R)
                    it.doctype_name R)
                  it.doctype_name R)
                it.doctype_name R)
              it.doctype_name R)
            it.doctype_name it.docfield_name company) it.doctype_name with
        | none =>
          dsimp only
          obtain ⟨ihd, ihf⟩ := ih _ (h1r)
            (fun u hu f hf hp => h2r u hu f (h6df ▸ hf) hp)
          exact ⟨ihd.trans h6docs, ihf.trans h6df⟩
        | some ns =>
          cases hc : containsChar ns '#' with
          | true =>
            dsimp only
            rw [if_pos (by rw [hc])]
            have hupd : docs_of (update_naming_series
                (delete_docs_linked_with_specified_company
                  (delete_child_tables
                    (unlink_attachments
                      (delete_comments
                        (delete_communications
                          (delete_version_log db it.doctype_name R)
                          it.doctype_name R)
                        it.doctype_name R)
                      it.doctype_name R)
                    it.doctype_name R)
                  it.doctype_name it.docfield_name company)
                ns it.doctype_name) dt = docs_of db dt := by
              unfold docs_of
              rw [update_naming_series_docs]
              exact h6docs
            have hupf : (update_naming_series
                (delete_docs_linked_with_specified_company
                  (delete_child_tables
                    (unlink_attachments
                      (delete_comments
                        (delete_communications
                          (delete_version_log db it.doctype_name R)
                          it.doctype_name R)
                        it.doctype_name R)
                      it.doctype_name R)
                    it.doctype_name R)
                  it.doctype_name it.docfield_name company)
                ns it.doctype_name).docfields = db.docfields := by
              rw [update_naming_series_docfields]
              exact h6df
            obtain ⟨ihd, ihf⟩ := ih _ (h1r)
              (fun u hu f hf hp => h2r u hu f (hupf ▸ hf) hp)
            exact ⟨ihd.trans hupd, ihf.trans hupf⟩
          | false =>
            dsimp only
            rw [if_neg (by rw [hc]; exact Bool.false_ne_true)]
            obtain ⟨ihd, ihf⟩ := ih _ (h1r)
              (fun u hu f hf hp => h2r u hu f (h6df ▸ hf) hp)
            exact ⟨ihd.trans h6docs, ihf.trans h6df⟩
      · dsimp only
        exact ⟨(ih db h1r h2r).1, (ih db h1r h2r).2⟩
    · dsimp only
      exact ⟨(ih db h1r h2r).1, (ih db h1r h2r).2⟩

/-- C10 (implicit): the ignore list used at scan and deletion time contains
every singleton (`issingle`) doctype and every stored ignored-types entry;
inventory initialization therefore never adds an entry for a singleton type;
and the deletion stage leaves the records of any doctype untouched when that
doctype is neither in the inventory nor declared as a child table of an
inventory doctype — so no singleton type is ever added to the inventory or
has its records deleted. -/
theorem singleton_types_never_deleted :
    (∀ (j : Job) (db : DB) (m : DocTypeMeta), m ∈ db.doctypes →
      m.issingle = true →
      (get_doctypes_to_be_ignored_list j db).contains m.name = true) ∧
    (∀ (j : Job) (db : DB) (e : IgnoredItem), e ∈ j.doctypes_to_be_ignored →
      (get_doctypes_to_be_ignored_list j db).contains e.doctype_name = true) ∧
    (∀ (j : Job) (db : DB) (e : InventoryItem),
      e ∈ (init_doctypes_to_be_deleted_table j db).job.doctypes →
      e ∈ j.doctypes ∨ is_single db e.doctype_name = false) ∧
    (∀ (j : Job) (db : DB) (dt : String),
      (inventory_names j).contains dt = false →
      (∀ it ∈ j.doctypes, ∀ f ∈ db.docfields,
        (f.fieldtype == "Table" && f.parent == it.doctype_name) = true →
        f.options ≠ dt) →
      docs_of (delete_company_transactions j db).db dt = docs_of db dt) := by
  refine ⟨?_, ?_, ?_, ?_⟩
  · intro j db m hm hsingle
    exact singleton_in_ignore_list j db m.name (List.any_eq_true.mpr
      ⟨m, hm, by rw [Bool.and_eq_true]; exact ⟨beq_self_eq_true _, hsingle⟩⟩)
  · intro j db e he
    apply List.elem_eq_true_of_mem
    unfold get_doctypes_to_be_ignored_list
    exact List.mem_append_right _ (List.mem_map_of_mem _ he)
  · intro j db e he
    unfold init_doctypes_to_be_deleted_table at he
    split at he
    · have he' : e ∈ ((get_doctypes_with_company_field db
          (get_doctypes_to_be_ignored_list j db)).foldl
            (init_step db j.company (get_all_child_doctypes db)) j).doctypes := he
      rcases init_fold_entries db j.company (get_all_child_doctypes db)
          (get_doctypes_with_company_field db
            (get_doctypes_to_be_ignored_list j db)) j e he' with h | ⟨f, hf, hfp⟩
      · exact Or.inl h
      · right
        cases hes : is_single db e.doctype_name with
        | false => rfl
        | true =>
          exfalso
          have hig : (get_doctypes_to_be_ignored_list j db).contains
              e.doctype_name = true :=
            singleton_in_ignore_list j db e.doctype_name hes
          have hpred := (List.mem_filter.mp hf).2
          rw [Bool.and_eq_true, Bool.and_eq_true] at hpred
          have hnc := hpred.2
          rw [← hfp, hig] at hnc
          exact Bool.noConfusion hnc
    · exact Or.inl he
  · intro j db dt hinv hchild
    have h1 : ∀ it ∈ j.doctypes, it.doctype_name ≠ dt := by
      intro it hit heq
      have hdt : dt ∈ inventory_names j := by
        unfold inventory_names
        rw [← heq]
        exact List.mem_map_of_mem _ hit
      have hc : (inventory_names j).contains dt = true :=
        List.elem_eq_true_of_mem hdt
      rw [hc] at hinv
      exact Bool.noConfusion hinv
    unfold delete_company_transactions
    split
    · dsimp only
      exact (loop_preserves_docs_of j.company dt j.doctypes db h1 hchild).1
    · rfl

/-- Witness for C10 at concrete stores: the singleton is in the computed
ignore list, a stored entry is in it, the initialized inventory entry is no
singleton, and the unrelated doctype's record survives the deletion stage. -/
theorem singleton_types_never_deleted_witness :
    (get_doctypes_to_be_ignored_list baseJob singletonDB).contains
      "Global Defaults" = true ∧
    (get_doctypes_to_be_ignored_list goodIgnoreJob emptyDB).contains
      "Account" = true ∧
    ((⟨"Sales Invoice", "company", 0, false⟩ : InventoryItem) ∈ baseJob.doctypes ∨
      is_single simpleDB "Sales Invoice" = false) ∧
    docs_of (delete_company_transactions scenarioJob c10DB).db "Item"
      = docs_of c10DB "Item" :=
  ⟨singleton_types_never_deleted.1 baseJob singletonDB
      ⟨"Global Defaults", true, false, none⟩ (by decide) rfl,
   singleton_types_never_deleted.2.1 goodIgnoreJob emptyDB ⟨"Account"⟩ (by decide),
   singleton_types_never_deleted.2.2.1 baseJob simpleDB
      ⟨"Sales Invoice", "company", 0, false⟩ (by decide),
   singleton_types_never_deleted.2.2.2 scenarioJob c10DB "Item" (by decide)
      (by decide)⟩

end TDR

